import Mathlib

-- Shallow embedding of the swift-stock-tracker-lite inventory application.
-- JavaScript strings are modelled as lists of characters (`Str`), JavaScript
-- numbers as `Int` (the quantities handled by the claims are integral and no
-- claim depends on fractional or floating-point behaviour), optional fields as
-- `Option`, and the hosted backend (supabase) as an explicit database state
-- threaded through the service operations, with Boolean failure injection for
-- the network calls whose failure the claims talk about.

/-- JavaScript strings, modelled as lists of characters. -/
abbrev Str := List Char

/-- The whitespace characters removed by JavaScript `String.prototype.trim`
(the forms that can occur in this app's data). -/
def jsIsWs (c : Char) : Bool := c = ' ' || c = '\t' || c = '\n' || c = '\r'

/-- JavaScript `s.trim()`: strip whitespace from both ends. -/
def trimC (s : Str) : Str := ((s.dropWhile jsIsWs).reverse.dropWhile jsIsWs).reverse

/-- JavaScript `s.toLowerCase()`. -/
def lowerC (s : Str) : Str := s.map Char.toLower

/-- JavaScript `s.includes(pat)`: substring test. -/
def includesC (s pat : Str) : Bool := decide (pat <:+: s)

/-- JavaScript `s.split(sep)` for a one-character separator: `split '\n'` and
`split ','` are used by `importInventoryFromCsv`. -/
def splitChar (sep : Char) : Str → List Str
  | [] => [[]]
  | c :: rest =>
    match splitChar sep rest with
    | [] => [[c]]
    | f :: fs => if c = sep then [] :: f :: fs else (c :: f) :: fs

-- Data model (src/src/lib/types.ts).

/-- `AdjustmentType` from src/src/lib/types.ts. -/
inductive AdjustmentType
  | increase
  | reduce
deriving DecidableEq

/-- `AdjustmentReason` from src/src/lib/types.ts (`ret` stands for the
source's "return", which is a reserved word in Lean). -/
inductive AdjustmentReason
  | restock
  | sale
  | ret
  | damaged
  | expired
  | correction
  | other
deriving DecidableEq

/-- `InventoryItem` from src/src/lib/types.ts.  The `unit` field is a plain
string: the TypeScript `Unit` union is erased at runtime and the CSV import
casts an arbitrary cell into it with `as any`.  `purchaseDate` keeps the raw
date string (no claim inspects date arithmetic). -/
structure InventoryItem where
  id : Str
  name : Str
  description : Option Str
  quantity : Int
  unit : Str
  purchaseDate : Option Str
  supplier : Option Str
  sku : Option Str
  minStockThreshold : Option Int
deriving DecidableEq

/-- `StockMovement` from src/src/lib/types.ts.  Database-generated ids and
timestamps are modelled by the database's insert counter. -/
structure StockMovement where
  id : Nat
  itemId : Str
  quantityBefore : Int
  quantityAfter : Int
  adjustmentType : AdjustmentType
  reason : AdjustmentReason
  notes : Option Str
  timestamp : Nat
deriving DecidableEq

/-- The argument of `addStockMovement`: `Omit<StockMovement, "id" | "timestamp">`. -/
structure MovementInput where
  itemId : Str
  quantityBefore : Int
  quantityAfter : Int
  adjustmentType : AdjustmentType
  reason : AdjustmentReason
  notes : Option Str
deriving DecidableEq

-- Database model for the supabase backend.

/-- A stored row of the `inventory_items` table:
`prepareInventoryItemForSupabase` attaches the authenticated user's id to the
app-level item (src/src/lib/supabase-types.ts). -/
structure ItemRow where
  userId : Str
  item : InventoryItem
deriving DecidableEq

/-- A stored row of the `stock_movements` table:
`prepareStockMovementForSupabase` output plus the columns the database fills
in (`id` and `timestamp`, both modelled by the insert counter). -/
structure MovementRow where
  id : Nat
  userId : Str
  itemId : Str
  quantityBefore : Int
  quantityAfter : Int
  adjustmentType : AdjustmentType
  reason : AdjustmentReason
  notes : Option Str
  timestamp : Nat
deriving DecidableEq

/-- The backend state: the two tables used by the service, plus the counter
that models database-generated movement ids/timestamps. -/
structure DB where
  items : List ItemRow
  movements : List MovementRow
  nextMovementId : Nat
deriving DecidableEq

/-- The errors a service call can throw: the explicit
`new Error('User not authenticated')` and the supabase errors re-thrown after
each failed call (distinguished by which call failed). -/
inductive SvcError
  | notAuthenticated
  | movementInsertFailed
  | itemUpdateFailed
deriving DecidableEq

/-- One successful write against the backend, recorded in order. -/
inductive WriteOp
  | insertMovement (row : MovementRow)
  | updateItemQuantity (itemId : Str) (quantity : Int)
  | insertItem (row : ItemRow)
deriving DecidableEq

/-- Result of a service call: the returned value or thrown error, the database
state after the call, and the ordered list of writes that were performed. -/
structure SvcOutcome (α : Type) where
  result : Except SvcError α
  db : DB
  trace : List WriteOp

/-- `prepareStockMovementForSupabase` (src/src/lib/supabase-types.ts) together
with the database-assigned `id`/`timestamp` columns. -/
def makeMovementRow (userId : Str) (movement : MovementInput) (id : Nat) : MovementRow :=
  { id := id
    userId := userId
    itemId := movement.itemId
    quantityBefore := movement.quantityBefore
    quantityAfter := movement.quantityAfter
    adjustmentType := movement.adjustmentType
    reason := movement.reason
    notes := movement.notes
    timestamp := id }

/-- `mapSupabaseToStockMovement` (src/src/lib/supabase-types.ts). -/
def mapSupabaseToStockMovement (row : MovementRow) : StockMovement :=
  { id := row.id
    itemId := row.itemId
    quantityBefore := row.quantityBefore
    quantityAfter := row.quantityAfter
    adjustmentType := row.adjustmentType
    reason := row.reason
    notes := row.notes
    timestamp := row.timestamp }

/-- `inventoryService.addStockMovement`, FIRST copy (src/unnamed/part_000
lines 102-137): check authentication, insert the movement row
(`movementInsertFails` injects a failure of that call), then update the item's
quantity to `movement.quantityAfter` (`updateFails` injects a failure of that
call).  Each failed call re-throws and later statements do not run; no
performed write is ever undone.  The quantity update applies to every stored
row whose item id equals `movement.itemId` (the `.eq('id', ...)` filter). -/
def addStockMovement (userId : Option Str) (movementInsertFails updateFails : Bool)
    (movement : MovementInput) (db : DB) : SvcOutcome StockMovement :=
  match userId with
  | none => { result := .error .notAuthenticated, db := db, trace := [] }
  | some u =>
    if movementInsertFails then
      { result := .error .movementInsertFailed, db := db, trace := [] }
    else
      let row := makeMovementRow u movement db.nextMovementId
      let db1 : DB :=
        { db with
          movements := db.movements ++ [row]
          nextMovementId := db.nextMovementId + 1 }
      if updateFails then
        { result := .error .itemUpdateFailed, db := db1, trace := [WriteOp.insertMovement row] }
      else
        let db2 : DB :=
          { db1 with
            items := db1.items.map fun r =>
              if r.item.id = movement.itemId then
                { r with item := { r.item with quantity := movement.quantityAfter } }
              else r }
        { result := .ok (mapSupabaseToStockMovement row)
          db := db2
          trace := [WriteOp.insertMovement row,
                    WriteOp.updateItemQuantity movement.itemId movement.quantityAfter] }

/-- `inventoryService.addStockMovement`, SECOND copy (src/unnamed/part_000
lines 403-426): check authentication and insert the movement row; this copy
performs no item-quantity update. -/
def addStockMovement2 (userId : Option Str) (movementInsertFails : Bool)
    (movement : MovementInput) (db : DB) : SvcOutcome StockMovement :=
  match userId with
  | none => { result := .error .notAuthenticated, db := db, trace := [] }
  | some u =>
    if movementInsertFails then
      { result := .error .movementInsertFailed, db := db, trace := [] }
    else
      let row := makeMovementRow u movement db.nextMovementId
      let db1 : DB :=
        { db with
          movements := db.movements ++ [row]
          nextMovementId := db.nextMovementId + 1 }
      { result := .ok (mapSupabaseToStockMovement row)
        db := db1
        trace := [WriteOp.insertMovement row] }

-- CSV export and import (src/unnamed/part_000, first copy).

/-- The character-by-character row scanner inside `importInventoryFromCsv`
(src/unnamed/part_000 lines 207-234).  State: the remaining characters, the
`inQuotes` flag, the accumulated `currentValue`, and the `values` pushed so
far.  The two-quote pattern implements the source's lookahead
`j < line.length - 1 && line[j+1] === '"'` followed by `j++`; a lone quote
toggles `inQuotes`; a comma outside quotes ends the field; any other
character is appended; at the end of the line the accumulated value is pushed
as the final field. -/
def csvScan : Str → Bool → Str → List Str → List Str
  | [], _, currentValue, values => values ++ [currentValue]
  | '"' :: '"' :: rest, inQuotes, currentValue, values =>
      csvScan rest inQuotes (currentValue ++ ['"']) values
  | '"' :: rest, inQuotes, currentValue, values =>
      csvScan rest (!inQuotes) currentValue values
  | c :: rest, inQuotes, currentValue, values =>
      if c = ',' && !inQuotes then
        csvScan rest inQuotes [] (values ++ [currentValue])
      else
        csvScan rest inQuotes (currentValue ++ [c]) values

/-- Parse one CSV line into its fields: the scanner started with
`inQuotes = false`, an empty current value and no accumulated fields. -/
def parseCsvRow (line : Str) : List Str := csvScan line false [] []

/-- JavaScript `cell.replace(/"/g, '""')`: double every double quote. -/
def dblQuotes : Str → Str
  | [] => []
  | c :: rest => if c = '"' then '"' :: '"' :: dblQuotes rest else c :: dblQuotes rest

/-- The cell escaping of `exportInventoryToCsv` (src/unnamed/part_000 lines
165-170): wrap the cell in double quotes and double each embedded quote
exactly when the cell contains a comma or a double quote. -/
def escapeCsvCell (cell : Str) : Str :=
  if ',' ∈ cell ∨ '"' ∈ cell then '"' :: dblQuotes cell ++ ['"']
  else cell

/-- JavaScript `row.join(',')`. -/
def joinComma : List Str → Str
  | [] => []
  | [cell] => cell
  | cell :: rest => cell ++ ',' :: joinComma rest

/-- One exported CSV line: every cell escaped, then joined with commas
(src/unnamed/part_000 lines 162-172). -/
def encodeCsvRow (cells : List Str) : Str := joinComma (cells.map escapeCsvCell)

-- Import (src/unnamed/part_000 lines 177-299).

/-- A `{ row, error }` entry of the list returned by `importInventoryFromCsv`. -/
structure ImportError where
  row : Nat
  error : Str
deriving DecidableEq

/-- The loop state of `importInventoryFromCsv`: the backend state, the
`existingSkus` set (a list, with membership as the set test), and the
`successItems` / `errors` accumulators. -/
structure ImportState where
  db : DB
  existingSkus : List Str
  success : List InventoryItem
  errors : List ImportError
deriving DecidableEq

def hdrName : Str := "Name".data
def hdrDescription : Str := "Description".data
def hdrQuantity : Str := "Quantity".data
def hdrUnit : Str := "Unit".data
def hdrPurchaseDate : Str := "Purchase Date".data
def hdrSupplier : Str := "Supplier".data
def hdrSku : Str := "SKU".data
def hdrMinStock : Str := "Min Stock Threshold".data

def msgNameRequired : Str := "Name is required".data
def msgQuantityInvalid : Str := "Quantity must be a valid number".data
def msgUnitRequired : Str := "Unit is required".data

/-- The interpolated duplicate-SKU message. -/
def msgSkuExists (sku : Str) : Str :=
  "SKU ".data ++ '\'' :: (sku ++ '\'' :: " already exists".data)

/-- Read field `h` of a parsed row: `values[headers.indexOf(h)]`.  A missing
header gives index -1 in JavaScript and `headers.length` in Lean; in both
cases the lookup yields no character data (JavaScript `undefined`, modelled
as the empty string, which the import code treats identically: both are
falsy, and `parseFloat` of both is `NaN`). -/
def csvField (headers : List Str) (values : List Str) (h : Str) : Str :=
  values.getD (headers.indexOf h) []

/-- Append one error entry `{ row := i, error := e }`. -/
def pushImportError (st : ImportState) (i : Nat) (e : Str) : ImportState :=
  { st with errors := st.errors ++ [{ row := i, error := e }] }

/-- The `item` object a valid CSV row is turned into (src/unnamed/part_000
lines 236-281): field lookups through the header row, empty cells giving
`undefined` (`none`), the id from `crypto.randomUUID()` (modelled by `ids`
applied to the row index), and `parseFloat` modelled by `parseNumber` (the
source stores `NaN` in `minStockThreshold` when that cell is non-empty but
unparseable; `NaN` is modelled as `none`). -/
def mkCsvItem (parseNumber : Str → Option Int) (ids : Nat → Str)
    (headers values : List Str) (i : Nat) (quantity : Int) : InventoryItem :=
  { id := ids i
    name := csvField headers values hdrName
    description := if csvField headers values hdrDescription = [] then none
                   else some (csvField headers values hdrDescription)
    quantity := quantity
    unit := csvField headers values hdrUnit
    purchaseDate := if csvField headers values hdrPurchaseDate = [] then none
                    else some (csvField headers values hdrPurchaseDate)
    supplier := if csvField headers values hdrSupplier = [] then none
                else some (csvField headers values hdrSupplier)
    sku := if csvField headers values hdrSku = [] then none
           else some (csvField headers values hdrSku)
    minStockThreshold := if csvField headers values hdrMinStock = [] then none
                         else parseNumber (csvField headers values hdrMinStock) }

/-- The body of the per-row loop of `importInventoryFromCsv` for line index
`i` (src/unnamed/part_000 lines 203-296): skip blank lines; parse the row;
build the candidate item; validate (empty name, unparseable quantity, empty
unit, duplicate SKU — in that order, the first failure alone being recorded);
on success insert the item (the `addInventoryItem` call, whose insert is
modelled as always accepted), record it in `successItems`, and add its SKU to
`existingSkus`.  `parseNumber` models the JavaScript `parseFloat` (`none` for
`NaN`); `ids` models `crypto.randomUUID()` as a function of the row index;
the source stores `NaN` in `minStockThreshold` when that cell is non-empty
but unparseable, modelled as `none`. -/
def processCsvLine (parseNumber : Str → Option Int) (ids : Nat → Str) (userId : Str)
    (headers : List Str) (i : Nat) (line : Str) (st : ImportState) : ImportState :=
  if trimC line = [] then st
  else
    let values := parseCsvRow line
    let name := csvField headers values hdrName
    let quantityOpt := parseNumber (csvField headers values hdrQuantity)
    let unit := csvField headers values hdrUnit
    let skuRaw := csvField headers values hdrSku
    if name = [] then pushImportError st i msgNameRequired
    else
      match quantityOpt with
      | none => pushImportError st i msgQuantityInvalid
      | some quantity =>
        if unit = [] then pushImportError st i msgUnitRequired
        else if skuRaw ≠ [] ∧ skuRaw ∈ st.existingSkus then
          pushImportError st i (msgSkuExists skuRaw)
        else
          let item := mkCsvItem parseNumber ids headers values i quantity
          { db := { st.db with items := st.db.items ++ [{ userId := userId, item := item }] }
            existingSkus := if skuRaw = [] then st.existingSkus else st.existingSkus ++ [skuRaw]
            success := st.success ++ [item]
            errors := st.errors }

/-- The `for (let i = 1; i < lines.length; i++)` loop of
`importInventoryFromCsv`: every line is processed in order, each through
`processCsvLine`, whatever the outcome on earlier lines. -/
def importCsvLoop (parseNumber : Str → Option Int) (ids : Nat → Str) (userId : Str)
    (headers : List Str) : Nat → List Str → ImportState → ImportState
  | _, [], st => st
  | i, line :: rest, st =>
      importCsvLoop parseNumber ids userId headers (i + 1) rest
        (processCsvLine parseNumber ids userId headers i line st)

/-- `inventoryService.importInventoryFromCsv`, first copy (src/unnamed/part_000
lines 178-299): authentication check, split into lines, header row split by
plain commas, `existingSkus` collected from the current user's stored items
(row-level security modelled as filtering the table by the user id; the
`.filter(Boolean)` drops absent SKUs), then the per-row loop starting at line
index 1. -/
def importInventoryFromCsv (parseNumber : Str → Option Int) (ids : Nat → Str)
    (userId : Option Str) (csvContent : Str) (db : DB) :
    Except SvcError (List InventoryItem × List ImportError) × DB :=
  match userId with
  | none => (.error .notAuthenticated, db)
  | some u =>
    let lines := splitChar '\n' csvContent
    let headers := splitChar ',' (lines.getD 0 [])
    let existingSkus := (db.items.filter (fun r => r.userId = u)).filterMap (fun r => r.item.sku)
    let st := importCsvLoop parseNumber ids u headers 1 (lines.drop 1)
      { db := db, existingSkus := existingSkus, success := [], errors := [] }
    (.ok (st.success, st.errors), st.db)

-- Inventory page (src/src/pages/Index.tsx) and table (src/src/components/InventoryTable.tsx).

/-- `isLowStock` from src/src/components/InventoryTable.tsx lines 90-93:
false when no threshold is configured, otherwise `quantity <= threshold`. -/
def isLowStock (item : InventoryItem) : Bool :=
  match item.minStockThreshold with
  | none => false
  | some t => item.quantity ≤ t

def tabAll : Str := "all".data
def tabLowStock : Str := "low-stock".data

/-- The `matchesSearch` predicate inside `filteredItems`
(src/src/pages/Index.tsx lines 178-182): the query is kept as typed; the
first disjunct is `!searchQuery.trim()`, the substring tests compare the
lowercased fields against `searchQuery.toLowerCase().trim()`, and an absent
field (`undefined`) contributes a falsy disjunct. -/
def matchesSearch (searchQuery : Str) (item : InventoryItem) : Bool :=
  decide (trimC searchQuery = []) ||
  includesC (lowerC item.name) (trimC (lowerC searchQuery)) ||
  (match item.description with
   | some d => includesC (lowerC d) (trimC (lowerC searchQuery))
   | none => false) ||
  (match item.supplier with
   | some s => includesC (lowerC s) (trimC (lowerC searchQuery))
   | none => false) ||
  (match item.sku with
   | some s => includesC (lowerC s) (trimC (lowerC searchQuery))
   | none => false)

/-- `filteredItems` (src/src/pages/Index.tsx lines 176-191): filter by the
search query, and additionally by the low-stock condition
`item.minStockThreshold !== undefined && item.quantity <= item.minStockThreshold`
when the active tab is "low-stock". -/
def filteredItems (items : List InventoryItem) (searchQuery : Str) (activeTab : Str) :
    List InventoryItem :=
  items.filter fun item =>
    let ms := matchesSearch searchQuery item
    if activeTab = tabLowStock then
      ms && (match item.minStockThreshold with
             | none => false
             | some t => item.quantity ≤ t)
    else ms

/-- `lowStockCount` (src/src/pages/Index.tsx lines 194-196). -/
def lowStockCount (items : List InventoryItem) : Nat :=
  (items.filter fun item =>
    match item.minStockThreshold with
    | none => false
    | some t => item.quantity ≤ t).length

-- Stock adjustment form (src/src/components/StockAdjustmentForm.tsx).

/-- A submitted value of the form's zod schema: the entered quantity (the
schema requires it positive), the adjustment type, reason and optional
notes. -/
structure FormValues where
  adjustmentType : AdjustmentType
  quantity : Int
  reason : AdjustmentReason
  notes : Option Str
deriving DecidableEq

/-- `Omit<StockMovement, "id" | "timestamp" | "itemId">`: the record passed
to `onAdjust`. -/
structure AdjustmentRecord where
  quantityBefore : Int
  quantityAfter : Int
  adjustmentType : AdjustmentType
  reason : AdjustmentReason
  notes : Option Str
deriving DecidableEq

/-- What `handleSubmit` does: either set a form error on a named field and
return, or call `onAdjust(item.id, record)`. -/
inductive SubmitResult
  | formError (field : Str) (message : Str)
  | adjust (itemId : Str) (record : AdjustmentRecord)
deriving DecidableEq

def quantityFieldName : Str := "quantity".data

/-- The interpolated manual form-error message. -/
def cannotReduceMsg (quantityBefore : Int) : Str :=
  "Cannot reduce more than current stock (".data ++ (toString quantityBefore).data ++ ")".data

/-- `handleSubmit` of StockAdjustmentForm (src/src/components/StockAdjustmentForm.tsx
lines 64-90): compute `quantityBefore`/`quantityAfter`, reject a reduction
below zero with a manual error on the quantity field, otherwise call
`onAdjust` with the movement record. -/
def handleSubmit (item : InventoryItem) (values : FormValues) : SubmitResult :=
  let quantityBefore := item.quantity
  let quantityAfter :=
    match values.adjustmentType with
    | .increase => quantityBefore + values.quantity
    | .reduce => quantityBefore - values.quantity
  if values.adjustmentType = .reduce ∧ quantityAfter < 0 then
    .formError quantityFieldName (cannotReduceMsg quantityBefore)
  else
    .adjust item.id
      { quantityBefore := quantityBefore
        quantityAfter := quantityAfter
        adjustmentType := values.adjustmentType
        reason := values.reason
        notes := values.notes }

-- Helper lemmas about the CSV scanner (shared by several theorems below).

theorem csvScan_nil (inQ : Bool) (cur : Str) (acc : List Str) :
    csvScan [] inQ cur acc = acc ++ [cur] := rfl

theorem csvScan_pair (rest : Str) (inQ : Bool) (cur : Str) (acc : List Str) :
    csvScan ('"' :: '"' :: rest) inQ cur acc = csvScan rest inQ (cur ++ ['"']) acc := rfl

theorem csvScan_quote_last (inQ : Bool) (cur : Str) (acc : List Str) :
    csvScan ['"'] inQ cur acc = csvScan [] (!inQ) cur acc := rfl

theorem csvScan_quote_cons (c : Char) (rest : Str) (inQ : Bool) (cur : Str) (acc : List Str)
    (h : c ≠ '"') :
    csvScan ('"' :: c :: rest) inQ cur acc = csvScan (c :: rest) (!inQ) cur acc := by
  simp [csvScan, h]

theorem csvScan_cons (c : Char) (rest : Str) (inQ : Bool) (cur : Str) (acc : List Str)
    (h : c ≠ '"') :
    csvScan (c :: rest) inQ cur acc =
      if c = ',' && !inQ then csvScan rest inQ [] (acc ++ [cur])
      else csvScan rest inQ (cur ++ [c]) acc := by
  rw [csvScan.eq_def]
  simp [h]

-- Claim C4: the row parser's character-by-character behaviour.

/-- C4: the CSV import parser splits a line by a character-by-character scan:
a double quote followed by another double quote appends one literal quote and
skips the second; any other double quote toggles the in-quotes state; a comma
ends the current field exactly when not inside quotes; every other character
is appended to the current field; and at the end of the line the accumulated
value is pushed as the final field. -/
theorem c4_csv_parser_scan :
    (∀ line, parseCsvRow line = csvScan line false [] []) ∧
    (∀ inQ cur acc, csvScan [] inQ cur acc = acc ++ [cur]) ∧
    (∀ rest inQ cur acc,
      csvScan ('"' :: '"' :: rest) inQ cur acc = csvScan rest inQ (cur ++ ['"']) acc) ∧
    (∀ inQ cur acc, csvScan ['"'] inQ cur acc = csvScan [] (!inQ) cur acc) ∧
    (∀ c rest inQ cur acc, c ≠ '"' →
      csvScan ('"' :: c :: rest) inQ cur acc = csvScan (c :: rest) (!inQ) cur acc) ∧
    (∀ rest cur acc, csvScan (',' :: rest) false cur acc = csvScan rest false [] (acc ++ [cur])) ∧
    (∀ rest cur acc, csvScan (',' :: rest) true cur acc = csvScan rest true (cur ++ [',']) acc) ∧
    (∀ c rest inQ cur acc, c ≠ '"' → c ≠ ',' →
      csvScan (c :: rest) inQ cur acc = csvScan rest inQ (cur ++ [c]) acc) := by
  refine ⟨fun _ => rfl, csvScan_nil, csvScan_pair, csvScan_quote_last, csvScan_quote_cons,
    ?_, ?_, ?_⟩
  · intro rest cur acc
    rw [csvScan_cons ',' rest false cur acc (by decide)]
    simp
  · intro rest cur acc
    rw [csvScan_cons ',' rest true cur acc (by decide)]
    simp
  · intro c rest inQ cur acc h h2
    rw [csvScan_cons c rest inQ cur acc h]
    simp [h2]

/-- Witness for C4: the hypothesis-bearing parts at concrete inputs. -/
theorem c4_csv_parser_scan_witness :
    csvScan ['"', 'x'] false [] [] = csvScan ['x'] true [] [] ∧
    csvScan ['x'] true [] [] = csvScan [] true ['x'] [] :=
  ⟨by simpa using c4_csv_parser_scan.2.2.2.2.1 'x' [] false [] [] (by decide),
   c4_csv_parser_scan.2.2.2.2.2.2.2 'x' [] true [] [] (by decide) (by decide)⟩

-- Claim C1: the two writes of addStockMovement are not atomic.

/-- C1: in the first copy of `addStockMovement`, if the movement insert
succeeds and the item-quantity update fails, the call throws the update error
while the inserted stock movement stays in the database and no item row is
touched: there is no compensation or rollback. -/
theorem c1_addStockMovement_no_rollback (u : Str) (m : MovementInput) (db : DB) :
    (addStockMovement (some u) false true m db).result = .error .itemUpdateFailed ∧
    (addStockMovement (some u) false true m db).db.movements
      = db.movements ++ [makeMovementRow u m db.nextMovementId] ∧
    (addStockMovement (some u) false true m db).db.items = db.items ∧
    (addStockMovement (some u) false true m db).trace
      = [WriteOp.insertMovement (makeMovementRow u m db.nextMovementId)] :=
  ⟨rfl, rfl, rfl, rfl⟩

-- Claim C2: the successful write sequence of addStockMovement.

/-- C2: a successful call of the first copy of `addStockMovement` performs
exactly two writes in order — insert the stock-movement row, then set the
quantity of the item identified by `movement.itemId` to
`movement.quantityAfter` — and returns the inserted movement mapped to the
app's `StockMovement` shape. -/
theorem c2_addStockMovement_success (u : Str) (m : MovementInput) (db : DB) :
    (addStockMovement (some u) false false m db).result
      = .ok (mapSupabaseToStockMovement (makeMovementRow u m db.nextMovementId)) ∧
    (addStockMovement (some u) false false m db).trace
      = [WriteOp.insertMovement (makeMovementRow u m db.nextMovementId),
         WriteOp.updateItemQuantity m.itemId m.quantityAfter] ∧
    (addStockMovement (some u) false false m db).db.movements
      = db.movements ++ [makeMovementRow u m db.nextMovementId] ∧
    (addStockMovement (some u) false false m db).db.items
      = db.items.map (fun r =>
          if r.item.id = m.itemId then
            { r with item := { r.item with quantity := m.quantityAfter } }
          else r) :=
  ⟨rfl, rfl, rfl, rfl⟩

-- Claim C10: the two service copies are NOT equivalent.

/-- Counterexample for C10: with one stored item of quantity 5 and a movement
whose `quantityAfter` is 3, the first copy of `addStockMovement` changes the
stored quantity while the second copy leaves the item table untouched, so the
two copies do not leave the stored item quantity in the same state. -/
theorem c10_counterexample :
    (addStockMovement2 (some ['u'])
        false
        { itemId := ['i'], quantityBefore := 5, quantityAfter := 3,
          adjustmentType := .reduce, reason := .sale, notes := none }
        { items := [{ userId := ['u'],
                      item := { id := ['i'], name := ['w'], description := none,
                                quantity := 5, unit := ['p'], purchaseDate := none,
                                supplier := none, sku := none, minStockThreshold := none } }],
          movements := [], nextMovementId := 0 }).db.items
      ≠
    (addStockMovement (some ['u'])
        false false
        { itemId := ['i'], quantityBefore := 5, quantityAfter := 3,
          adjustmentType := .reduce, reason := .sale, notes := none }
        { items := [{ userId := ['u'],
                      item := { id := ['i'], name := ['w'], description := none,
                                quantity := 5, unit := ['p'], purchaseDate := none,
                                supplier := none, sku := none, minStockThreshold := none } }],
          movements := [], nextMovementId := 0 }).db.items := by
  decide

/-- C10 as amended: the two copies agree on the movement insert and on the
returned value, but only the first updates the item quantity; the second
leaves the item table unchanged. -/
theorem c10_copies_differ_amended (u : Str) (f : Bool) (m : MovementInput) (db : DB) :
    (addStockMovement2 (some u) f m db).result = (addStockMovement (some u) f false m db).result ∧
    (addStockMovement2 (some u) f m db).db.movements
      = (addStockMovement (some u) f false m db).db.movements ∧
    (addStockMovement2 (some u) f m db).db.items = db.items ∧
    (addStockMovement (some u) f false m db).db.items
      = (if f then db.items
         else db.items.map (fun r =>
           if r.item.id = m.itemId then
             { r with item := { r.item with quantity := m.quantityAfter } }
           else r)) := by
  cases f <;> exact ⟨rfl, rfl, rfl, rfl⟩

-- Claim C7: the movement record produced by the adjustment form.

/-- C7: whenever the stock-adjustment form's `handleSubmit` calls `onAdjust`
with an entered quantity q > 0, the record has `quantityBefore` equal to the
item's current quantity, `quantityAfter = quantityBefore + q` for an increase
and `quantityBefore - q` for a reduction, carries the chosen type, reason and
notes, and the direction of the recorded change matches the adjustment
type. -/
theorem c7_adjustment_record (item : InventoryItem) (values : FormValues)
    (itemId : Str) (record : AdjustmentRecord)
    (hq : 0 < values.quantity)
    (h : handleSubmit item values = .adjust itemId record) :
    itemId = item.id ∧
    record.quantityBefore = item.quantity ∧
    (values.adjustmentType = .increase →
      record.quantityAfter = item.quantity + values.quantity) ∧
    (values.adjustmentType = .reduce →
      record.quantityAfter = item.quantity - values.quantity) ∧
    record.adjustmentType = values.adjustmentType ∧
    record.reason = values.reason ∧
    record.notes = values.notes ∧
    (values.adjustmentType = .increase → record.quantityBefore < record.quantityAfter) ∧
    (values.adjustmentType = .reduce → record.quantityAfter < record.quantityBefore) := by
  simp only [handleSubmit] at h
  split at h <;> rename_i hcond
  · simp at h
  · injection h with h1 h2
    subst h1
    subst h2
    refine ⟨rfl, rfl, ?_, ?_, rfl, rfl, rfl, ?_, ?_⟩
    · intro hAT
      simp only [hAT]
    · intro hAT
      simp only [hAT]
    · intro hAT
      simp only [hAT]
      omega
    · intro hAT
      simp only [hAT]
      omega

/-- Witness for C7 at a concrete input: increasing a stock of 5 by 2. -/
theorem c7_adjustment_record_witness :
    ({ quantityBefore := 5, quantityAfter := 7, adjustmentType := .increase,
       reason := .restock, notes := none } : AdjustmentRecord).quantityBefore
      = ({ id := ['i'], name := ['n'], description := none, quantity := 5,
           unit := ['p'], purchaseDate := none, supplier := none, sku := none,
           minStockThreshold := none } : InventoryItem).quantity :=
  (c7_adjustment_record
    { id := ['i'], name := ['n'], description := none, quantity := 5,
      unit := ['p'], purchaseDate := none, supplier := none, sku := none,
      minStockThreshold := none }
    { adjustmentType := .increase, quantity := 2, reason := .restock, notes := none }
    ['i']
    { quantityBefore := 5, quantityAfter := 7, adjustmentType := .increase,
      reason := .restock, notes := none }
    (by decide) (by decide)).2.1

-- Claim C9: the form never emits a negative stock level.

/-- C9: `handleSubmit` calls `onAdjust` exactly when it is not the case that
the adjustment is a reduction taking the stock below zero; in that rejected
case it sets a manual error on the quantity field instead, so (for a
non-negative current quantity and positive entered quantity) every produced
record satisfies `quantityAfter ≥ 0`. -/
theorem c9_no_negative_stock (item : InventoryItem) (values : FormValues)
    (hq : 0 < values.quantity) (hnn : 0 ≤ item.quantity) :
    ((values.adjustmentType = .reduce ∧ item.quantity - values.quantity < 0) →
      handleSubmit item values
        = .formError quantityFieldName (cannotReduceMsg item.quantity)) ∧
    (¬(values.adjustmentType = .reduce ∧ item.quantity - values.quantity < 0) →
      ∃ record, handleSubmit item values = .adjust item.id record) ∧
    (∀ itemId record, handleSubmit item values = .adjust itemId record →
      0 ≤ record.quantityAfter) := by
  refine ⟨?_, ?_, ?_⟩
  · rintro ⟨h1, h2⟩
    simp only [handleSubmit]
    split <;> rename_i hcond
    · rfl
    · exact absurd ⟨h1, by rw [h1]; exact h2⟩ hcond
  · intro hn
    simp only [handleSubmit]
    split <;> rename_i hcond
    · exact absurd ⟨hcond.1, by have hx := hcond.2; rw [hcond.1] at hx; exact hx⟩ hn
    · exact ⟨_, rfl⟩
  · intro itemId record h
    simp only [handleSubmit] at h
    split at h <;> rename_i hcond
    · simp at h
    · injection h with h1 h2
      subst h2
      cases hAT : values.adjustmentType
      · simp only [hAT]
        omega
      · have hge : ¬(item.quantity - values.quantity < 0) :=
          fun hlt => hcond ⟨hAT, by rw [hAT]; exact hlt⟩
        simp only [hAT]
        omega

/-- Witness for C9 at a concrete input: reducing a stock of 1 by 2 is
rejected with a form error on the quantity field. -/
theorem c9_no_negative_stock_witness :
    handleSubmit
      { id := ['i'], name := ['n'], description := none, quantity := 1,
        unit := ['p'], purchaseDate := none, supplier := none, sku := none,
        minStockThreshold := none }
      { adjustmentType := .reduce, quantity := 2, reason := .sale, notes := none }
      = .formError quantityFieldName (cannotReduceMsg 1) :=
  (c9_no_negative_stock
    { id := ['i'], name := ['n'], description := none, quantity := 1,
      unit := ['p'], purchaseDate := none, supplier := none, sku := none,
      minStockThreshold := none }
    { adjustmentType := .reduce, quantity := 2, reason := .sale, notes := none }
    (by decide) (by decide)).1 ⟨rfl, by decide⟩

-- Helper lemmas about trimming and lowercasing (shared below).

theorem jsWs_toLower_eq {c : Char} (h : jsIsWs c = true) : Char.toLower c = c := by
  simp only [jsIsWs, Bool.or_eq_true, decide_eq_true_eq] at h
  rcases h with ((h | h) | h) | h <;> subst h <;> decide

theorem trimC_eq_nil_iff (s : Str) : trimC s = [] ↔ ∀ c ∈ s, jsIsWs c := by
  unfold trimC
  constructor
  · intro h
    rw [List.reverse_eq_nil_iff, List.dropWhile_eq_nil_iff] at h
    intro c hc
    have hmem : c ∈ s.takeWhile jsIsWs ++ s.dropWhile jsIsWs := by
      rw [List.takeWhile_append_dropWhile]
      exact hc
    rcases List.mem_append.mp hmem with h1 | h2
    · exact List.mem_takeWhile_imp h1
    · exact h c (List.mem_reverse.mpr h2)
  · intro h
    have hdrop : s.dropWhile jsIsWs = [] := List.dropWhile_eq_nil_iff.mpr fun c hc => h c hc
    rw [hdrop]
    rfl

theorem lowerC_of_all_ws : ∀ {s : Str}, (∀ c ∈ s, jsIsWs c) → lowerC s = s := by
  intro s
  induction s with
  | nil => intro _; rfl
  | cons c cs ih =>
    intro h
    have h1 : Char.toLower c = c := jsWs_toLower_eq (h c (by simp))
    have h2 : lowerC cs = cs := ih fun x hx => h x (by simp [hx])
    show Char.toLower c :: lowerC cs = c :: cs
    rw [h1, h2]

theorem trimC_lower_eq_nil {q : Str} (h : trimC q = []) : trimC (lowerC q) = [] := by
  rw [lowerC_of_all_ws ((trimC_eq_nil_iff q).mp h)]
  exact h

-- Claim C3: the low-stock predicate, the low-stock tab filter and the badge.

/-- C3: `isLowStock item` holds exactly when a minimum threshold is configured
and the quantity is at or below it; the low-stock tab of `filteredItems` keeps
exactly the items matching the search that satisfy this same predicate, and
`lowStockCount` counts exactly the items satisfying it. -/
theorem c3_low_stock_predicate :
    (∀ item, isLowStock item = true ↔
      ∃ t, item.minStockThreshold = some t ∧ item.quantity ≤ t) ∧
    (∀ items searchQuery,
      filteredItems items searchQuery tabLowStock
        = items.filter fun item => matchesSearch searchQuery item && isLowStock item) ∧
    (∀ items, lowStockCount items = (items.filter isLowStock).length) := by
  refine ⟨?_, ?_, ?_⟩
  · intro item
    cases h : item.minStockThreshold <;> simp [isLowStock, h]
  · intro items searchQuery
    unfold filteredItems
    apply List.filter_congr
    intro item _
    cases h : item.minStockThreshold <;> simp [isLowStock, h]
  · intro items
    rfl

/-- Witness for C3: a concrete item with threshold 3 and quantity 2 is low
stock. -/
theorem c3_low_stock_predicate_witness :
    isLowStock
      { id := ['i'], name := ['n'], description := none, quantity := 2,
        unit := ['p'], purchaseDate := none, supplier := none, sku := none,
        minStockThreshold := some 3 } = true :=
  (c3_low_stock_predicate.1 _).mpr ⟨3, rfl, by decide⟩

-- Claim C8: the search filter on the "all" tab.

/-- C8: with the "all" tab active, `filteredItems` keeps exactly the items
whose `matchesSearch` holds, `matchesSearch` holds exactly when the trimmed
and lowercased query is empty or is a substring of the lowercased name,
description, supplier or SKU (absent fields never match), and an
all-whitespace query keeps every item. -/
theorem c8_search_filter (items : List InventoryItem) (searchQuery : Str) :
    filteredItems items searchQuery tabAll = items.filter (matchesSearch searchQuery) ∧
    (∀ item, matchesSearch searchQuery item = true ↔
      (trimC (lowerC searchQuery) = [] ∨
       trimC (lowerC searchQuery) <:+: lowerC item.name ∨
       (∃ d, item.description = some d ∧ trimC (lowerC searchQuery) <:+: lowerC d) ∨
       (∃ s, item.supplier = some s ∧ trimC (lowerC searchQuery) <:+: lowerC s) ∨
       (∃ s, item.sku = some s ∧ trimC (lowerC searchQuery) <:+: lowerC s))) ∧
    (trimC searchQuery = [] → filteredItems items searchQuery tabAll = items) := by
  have hfa : filteredItems items searchQuery tabAll = items.filter (matchesSearch searchQuery) := by
    unfold filteredItems
    apply List.filter_congr
    intro item _
    simp [show ¬(tabAll = tabLowStock) from by decide]
  refine ⟨hfa, ?_, ?_⟩
  · intro item
    have himp : trimC searchQuery = [] → trimC (lowerC searchQuery) = [] := trimC_lower_eq_nil
    have hback : trimC (lowerC searchQuery) = [] →
        trimC (lowerC searchQuery) <:+: lowerC item.name := fun hh => by
      rw [hh]
      exact List.nil_infix
    cases hd : item.description <;> cases hs : item.supplier <;> cases hk : item.sku <;>
      simp [matchesSearch, includesC, hd, hs, hk] <;> tauto
  · intro hq
    rw [hfa]
    apply List.filter_eq_self.mpr
    intro item _
    simp [matchesSearch, hq]

/-- Witness for C8 at a concrete input: an all-whitespace query keeps the
whole item list. -/
theorem c8_search_filter_witness :
    filteredItems
      [{ id := ['i'], name := ['n'], description := none, quantity := 0,
         unit := ['p'], purchaseDate := none, supplier := none, sku := none,
         minStockThreshold := none }]
      [' '] tabAll
      = [{ id := ['i'], name := ['n'], description := none, quantity := 0,
           unit := ['p'], purchaseDate := none, supplier := none, sku := none,
           minStockThreshold := none }] :=
  (c8_search_filter _ [' ']).2.2 (by decide)

-- Claim C6: the import loop processes every non-empty row independently.

/-- C6: for every non-blank data row, `processCsvLine` either (when the Name
field is empty, the Quantity field does not parse, the Unit field is empty,
or the SKU duplicates a known SKU) records exactly one
`{ row := i, error := e }` entry and changes nothing else, or (otherwise)
inserts exactly one item, appends it to the success list, extends the known
SKUs with the row's SKU, and records no error; and the import loop feeds every
line through `processCsvLine` in order, so a failing row never prevents later
rows from being processed. -/
theorem c6_import_row_dichotomy :
    (∀ (parseNumber : Str → Option Int) (ids : Nat → Str) (userId : Str)
       (headers : List Str) (i : Nat) (line : Str) (st : ImportState),
      trimC line ≠ [] →
      ((csvField headers (parseCsvRow line) hdrName = [] ∨
        parseNumber (csvField headers (parseCsvRow line) hdrQuantity) = none ∨
        csvField headers (parseCsvRow line) hdrUnit = [] ∨
        (csvField headers (parseCsvRow line) hdrSku ≠ [] ∧
         csvField headers (parseCsvRow line) hdrSku ∈ st.existingSkus)) →
        ∃ e, processCsvLine parseNumber ids userId headers i line st
          = { st with errors := st.errors ++ [{ row := i, error := e }] }) ∧
      (¬(csvField headers (parseCsvRow line) hdrName = [] ∨
         parseNumber (csvField headers (parseCsvRow line) hdrQuantity) = none ∨
         csvField headers (parseCsvRow line) hdrUnit = [] ∨
         (csvField headers (parseCsvRow line) hdrSku ≠ [] ∧
          csvField headers (parseCsvRow line) hdrSku ∈ st.existingSkus)) →
        ∃ item, processCsvLine parseNumber ids userId headers i line st
          = { db := { st.db with items := st.db.items ++ [{ userId := userId, item := item }] }
              existingSkus := st.existingSkus ++
                (if csvField headers (parseCsvRow line) hdrSku = [] then []
                 else [csvField headers (parseCsvRow line) hdrSku])
              success := st.success ++ [item]
              errors := st.errors })) ∧
    (∀ parseNumber ids userId headers i line rest st,
      importCsvLoop parseNumber ids userId headers i (line :: rest) st
        = importCsvLoop parseNumber ids userId headers (i + 1) rest
            (processCsvLine parseNumber ids userId headers i line st)) := by
  refine ⟨?_, fun _ _ _ _ _ _ _ _ => rfl⟩
  intro parseNumber ids userId headers i line st htrim
  constructor
  · intro hbad
    simp only [processCsvLine, if_neg htrim]
    by_cases h1 : csvField headers (parseCsvRow line) hdrName = []
    · exact ⟨msgNameRequired, by rw [if_pos h1]; rfl⟩
    · rw [if_neg h1]
      cases h2 : parseNumber (csvField headers (parseCsvRow line) hdrQuantity) with
      | none => exact ⟨msgQuantityInvalid, rfl⟩
      | some q =>
        by_cases h3 : csvField headers (parseCsvRow line) hdrUnit = []
        · exact ⟨msgUnitRequired, by simp [h3, pushImportError]⟩
        · rcases hbad with hb | hb | hb | hb
          · exact absurd hb h1
          · rw [h2] at hb
            exact absurd hb (by simp)
          · exact absurd hb h3
          · refine ⟨msgSkuExists (csvField headers (parseCsvRow line) hdrSku), ?_⟩
            show (if csvField headers (parseCsvRow line) hdrUnit = [] then
                pushImportError st i msgUnitRequired
              else if csvField headers (parseCsvRow line) hdrSku ≠ [] ∧
                  csvField headers (parseCsvRow line) hdrSku ∈ st.existingSkus then
                pushImportError st i (msgSkuExists (csvField headers (parseCsvRow line) hdrSku))
              else _) = _
            rw [if_neg h3, if_pos hb]
            rfl
  · intro hgood
    have h1 : ¬(csvField headers (parseCsvRow line) hdrName = []) :=
      fun h => hgood (Or.inl h)
    have h3 : ¬(csvField headers (parseCsvRow line) hdrUnit = []) :=
      fun h => hgood (Or.inr (Or.inr (Or.inl h)))
    have h4 : ¬(csvField headers (parseCsvRow line) hdrSku ≠ [] ∧
        csvField headers (parseCsvRow line) hdrSku ∈ st.existingSkus) :=
      fun h => hgood (Or.inr (Or.inr (Or.inr h)))
    simp only [processCsvLine, if_neg htrim, if_neg h1]
    cases h2 : parseNumber (csvField headers (parseCsvRow line) hdrQuantity) with
    | none => exact absurd h2 fun h => hgood (Or.inr (Or.inl h))
    | some q =>
      refine ⟨mkCsvItem parseNumber ids headers (parseCsvRow line) i q, ?_⟩
      show (if csvField headers (parseCsvRow line) hdrUnit = [] then
          pushImportError st i msgUnitRequired
        else if csvField headers (parseCsvRow line) hdrSku ≠ [] ∧
            csvField headers (parseCsvRow line) hdrSku ∈ st.existingSkus then
          pushImportError st i (msgSkuExists (csvField headers (parseCsvRow line) hdrSku))
        else _) = _
      rw [if_neg h3, if_neg h4]
      by_cases hsku : csvField headers (parseCsvRow line) hdrSku = [] <;>
        simp [hsku]

/-- Witness for C6 at a concrete input: a non-blank row with an empty Name
field contributes exactly one error entry for its row index and changes
nothing else. -/
theorem c6_import_row_dichotomy_witness :
    ∃ e, processCsvLine (fun _ => none) (fun _ => []) ['u']
        [hdrName, hdrQuantity, hdrUnit] 1 [',', '1', ',', 'u']
        { db := { items := [], movements := [], nextMovementId := 0 },
          existingSkus := [], success := [], errors := [] }
      = { db := { items := [], movements := [], nextMovementId := 0 },
          existingSkus := [], success := [],
          errors := [] ++ [{ row := 1, error := e }] } :=
  ((c6_import_row_dichotomy.1 (fun _ => none) (fun _ => []) ['u']
      [hdrName, hdrQuantity, hdrUnit] 1 [',', '1', ',', 'u']
      { db := { items := [], movements := [], nextMovementId := 0 },
        existingSkus := [], success := [], errors := [] }
      (by decide)).1 (Or.inl (by decide)))

-- Round-trip lemmas for the CSV encoding (claim C5).

theorem dblQuotes_quote (c : Str) : dblQuotes ('"' :: c) = '"' :: '"' :: dblQuotes c := by
  simp [dblQuotes]

theorem dblQuotes_other (x : Char) (c : Str) (hx : x ≠ '"') :
    dblQuotes (x :: c) = x :: dblQuotes c := by
  simp [dblQuotes, hx]

/-- Scanning the quote-doubled content of a cell inside quotes appends the
cell to the current value and consumes exactly the doubled content. -/
theorem csv_contentScan (c : Str) :
    ∀ (s cur : Str) (acc : List Str),
      csvScan (dblQuotes c ++ s) true cur acc = csvScan s true (cur ++ c) acc := by
  induction c with
  | nil =>
    intro s cur acc
    simp [dblQuotes]
  | cons x c ih =>
    intro s cur acc
    by_cases hx : x = '"'
    · subst hx
      rw [dblQuotes_quote, List.cons_append, List.cons_append, csvScan_pair, ih]
      simp
    · rw [dblQuotes_other x c hx, List.cons_append,
        csvScan_cons x _ true cur acc hx, if_neg (by simp), ih]
      simp

/-- Scanning a whole quoted cell (opening quote, doubled content, closing
quote) from outside quotes appends the cell and returns to the outside-quotes
state, provided the cell has at least one non-quote character and the line
continues with a comma or ends. -/
theorem csv_openScan : ∀ (c : Str), (∃ x ∈ c, x ≠ '"') →
    ∀ (s cur : Str) (acc : List Str), (s = [] ∨ ∃ s2, s = ',' :: s2) →
      csvScan ('"' :: (dblQuotes c ++ '"' :: s)) false cur acc
        = csvScan s false (cur ++ c) acc := by
  intro c
  induction c with
  | nil =>
    intro h
    rcases h with ⟨x, hx, _⟩
    simp at hx
  | cons x c ih =>
    intro hc s cur acc hs
    by_cases hx : x = '"'
    · subst hx
      have hc2 : ∃ y ∈ c, y ≠ '"' := by
        rcases hc with ⟨y, hy, hyq⟩
        rcases List.mem_cons.mp hy with rfl | hmem
        · exact absurd rfl hyq
        · exact ⟨y, hmem, hyq⟩
      rw [dblQuotes_quote, List.cons_append, List.cons_append, csvScan_pair,
        ih hc2 s (cur ++ ['"']) acc hs]
      simp
    · rw [dblQuotes_other x c hx, List.cons_append,
        csvScan_quote_cons x _ false cur acc hx]
      simp only [Bool.not_false]
      rw [csvScan_cons x _ true cur acc hx, if_neg (by simp),
        csv_contentScan c ('"' :: s) (cur ++ [x]) acc]
      rcases hs with rfl | ⟨s2, rfl⟩
      · rw [csvScan_quote_last]
        simp
      · rw [csvScan_quote_cons ',' s2 true _ acc (by decide)]
        simp

/-- Scanning an unescaped cell (no quote, no comma) from outside quotes
appends the cell to the current value. -/
theorem csv_plainScan : ∀ (c : Str), (∀ x ∈ c, x ≠ '"' ∧ x ≠ ',') →
    ∀ (s cur : Str) (acc : List Str),
      csvScan (c ++ s) false cur acc = csvScan s false (cur ++ c) acc := by
  intro c
  induction c with
  | nil =>
    intro _ s cur acc
    simp
  | cons x c ih =>
    intro h s cur acc
    obtain ⟨hxq, hxc⟩ := h x (by simp)
    rw [List.cons_append, csvScan_cons x _ false cur acc hxq, if_neg (by simp [hxc]),
      ih (fun y hy => h y (by simp [hy])) s (cur ++ [x]) acc]
    simp

/-- Scanning one whole encoded row yields exactly its cells, provided no cell
is a nonempty string consisting only of double quotes. -/
theorem csv_rowScan : ∀ (cs : List Str) (c0 : Str),
    (c0 = [] ∨ ∃ x ∈ c0, x ≠ '"') →
    (∀ c ∈ cs, c = [] ∨ ∃ x ∈ c, x ≠ '"') →
    ∀ (cur : Str) (acc : List Str),
      csvScan (encodeCsvRow (c0 :: cs)) false cur acc = acc ++ (cur ++ c0) :: cs := by
  intro cs
  induction cs with
  | nil =>
    intro c0 h0 _ cur acc
    show csvScan (escapeCsvCell c0) false cur acc = _
    unfold escapeCsvCell
    by_cases hesc : ',' ∈ c0 ∨ '"' ∈ c0
    · rw [if_pos hesc]
      have hnq : ∃ x ∈ c0, x ≠ '"' := by
        rcases h0 with rfl | h
        · rcases hesc with h | h <;> simp at h
        · exact h
      rw [show ('"' :: dblQuotes c0 ++ ['"'] : Str)
          = '"' :: (dblQuotes c0 ++ '"' :: []) from by simp,
        csv_openScan c0 hnq [] cur acc (Or.inl rfl)]
      rfl
    · rw [if_neg hesc]
      push_neg at hesc
      have hcc : ∀ x ∈ c0, x ≠ '"' ∧ x ≠ ',' :=
        fun x hx => ⟨fun he => hesc.2 (he ▸ hx), fun he => hesc.1 (he ▸ hx)⟩
      rw [show (c0 : Str) = c0 ++ [] from by simp,
        csv_plainScan c0 hcc [] cur acc]
      simp [csvScan_nil]
  | cons c1 cs ih =>
    intro c0 h0 hall cur acc
    have hjoin : encodeCsvRow (c0 :: c1 :: cs)
        = escapeCsvCell c0 ++ ',' :: encodeCsvRow (c1 :: cs) := rfl
    rw [hjoin]
    unfold escapeCsvCell
    by_cases hesc : ',' ∈ c0 ∨ '"' ∈ c0
    · rw [if_pos hesc]
      have hnq : ∃ x ∈ c0, x ≠ '"' := by
        rcases h0 with rfl | h
        · rcases hesc with h | h <;> simp at h
        · exact h
      rw [show (('"' :: dblQuotes c0 ++ ['"'] : Str)) ++ ',' :: encodeCsvRow (c1 :: cs)
          = '"' :: (dblQuotes c0 ++ '"' :: (',' :: encodeCsvRow (c1 :: cs))) from by simp,
        csv_openScan c0 hnq (',' :: encodeCsvRow (c1 :: cs)) cur acc (Or.inr ⟨_, rfl⟩),
        csvScan_cons ',' _ false _ acc (by decide), if_pos (by simp),
        ih c1 (hall c1 (by simp)) (fun c hc => hall c (by simp [hc])) [] (acc ++ [cur ++ c0])]
      simp
    · rw [if_neg hesc]
      push_neg at hesc
      have hcc : ∀ x ∈ c0, x ≠ '"' ∧ x ≠ ',' :=
        fun x hx => ⟨fun he => hesc.2 (he ▸ hx), fun he => hesc.1 (he ▸ hx)⟩
      rw [csv_plainScan c0 hcc (',' :: encodeCsvRow (c1 :: cs)) cur acc,
        csvScan_cons ',' _ false _ acc (by decide), if_pos (by simp),
        ih c1 (hall c1 (by simp)) (fun c hc => hall c (by simp [hc])) [] (acc ++ [cur ++ c0])]
      simp

-- Claim C5: the CSV cell round trip (corrected).

/-- Counterexample for C5: the single-cell list whose cell is one double
quote contains no newline, yet exporting and re-parsing it yields a cell of
two double quotes, not the original cell: the parser treats the opening
wrap quote together with the first doubled quote as an escaped pair. -/
theorem c5_roundtrip_counterexample :
    (∀ cell ∈ [['"']], '\n' ∉ cell) ∧
    parseCsvRow (encodeCsvRow [['"']]) = [['"', '"']] ∧
    parseCsvRow (encodeCsvRow [['"']]) ≠ [['"']] := by
  decide

/-- C5 as amended: for every nonempty list of newline-free cells in which no
cell is a nonempty string consisting only of double quotes, exporting the
cells (escape each, join with commas) and parsing the resulting line yields
exactly the original cells. -/
theorem c5_roundtrip_amended (cells : List Str) (hne : cells ≠ [])
    (hnl : ∀ cell ∈ cells, '\n' ∉ cell)
    (hok : ∀ cell ∈ cells, cell = [] ∨ ∃ x ∈ cell, x ≠ '"') :
    parseCsvRow (encodeCsvRow cells) = cells := by
  match cells with
  | [] => exact absurd rfl hne
  | c0 :: cs =>
    unfold parseCsvRow
    rw [csv_rowScan cs c0 (hok c0 (by simp)) (fun c hc => hok c (by simp [hc])) [] []]
    simp

/-- Witness for C5 (amended) at a concrete input: a plain cell, a comma cell
and a cell with a leading quote all round-trip. -/
theorem c5_roundtrip_amended_witness :
    parseCsvRow (encodeCsvRow [['a'], [','], ['"', 'x'], []]) = [['a'], [','], ['"', 'x'], []] :=
  c5_roundtrip_amended [['a'], [','], ['"', 'x'], []] (by decide) (by decide) (by decide)
